import Mathlib

/-!
Verification of the small-step SIMPLE interpreter (src/src/lib.rs).

The Rust code defines an AST type `Element`, a reducibility predicate
`is_reducible`, a partial value projection `value` (panics on terms other
than `Number` and `Boolean`), a one-step reducer `reduce` that threads a
mutable environment `HashMap<String, Box<Element>>`, and a `Machine` driver
that repeatedly steps until the expression is no longer reducible.

The embedding below is shallow: the environment becomes an explicit store
passed in and returned, and the two panic sites become an explicit error
result (`typeMismatch` for the panic in `value` and the panic in the
`IfElse` arm, `unhandledForm` for the catch-all panic at the end of
`reduce`, following the error taxonomy of the design document).
-/

namespace SimpleSmallStep

/-- The AST of SIMPLE, mirroring `enum Element` in src/src/lib.rs.
Rust `i64` payloads are modelled as `Int`; the arithmetic contractions in
`reduce` wrap their results back into the `i64` range (see `wrap64`), so
payloads that start in range stay in range.  `String` stays `String`,
boxes disappear. -/
inductive Element where
  | Number : Int → Element
  | Add : Element → Element → Element
  | Multiply : Element → Element → Element
  | Boolean : Bool → Element
  | LessThan : Element → Element → Element
  | Variable : String → Element
  | Assign : String → Element → Element
  | Sequence : Element → Element → Element
  | IfElse : Element → Element → Element → Element
  | While : Element → Element → Element
  | DoNothing : Element
deriving DecidableEq, Repr

/-- `Element::is_reducible`, arm for arm. -/
def Element.is_reducible : Element → Bool
  | .Number _ => false
  | .Boolean _ => false
  | .DoNothing => false
  | .Add _ _ => true
  | .Multiply _ _ => true
  | .LessThan _ _ => true
  | .Variable _ => true
  | .Assign _ _ => true
  | .Sequence _ _ => true
  | .IfElse _ _ _ => true
  | .While _ _ => true

/-- `Element::value`. The Rust function panics with a type-mismatch message
on every variant other than `Number` and `Boolean`; the panic is modelled
as `none`. -/
def Element.value : Element → Option Int
  | .Number val => some val
  | .Boolean true => some 1
  | .Boolean false => some 0
  | _ => none

/-- The environment `HashMap<String, Box<Element>>`, modelled extensionally
as a finite-support lookup function. -/
def Store := String → Option Element

/-- A `HashMap` with no entries. -/
def Store.empty : Store := fun _ => none

/-- `HashMap::insert`: adds the binding `k ↦ v`, overwriting any previous
binding of `k` and leaving every other key unchanged. -/
def Store.insert (s : Store) (k : String) (v : Element) : Store :=
  fun q => if q = k then some v else s q

/-- The two fatal error kinds of the reducer: `typeMismatch` for the panic
inside `value` and the panic in the `IfElse` arm of `reduce`,
`unhandledForm` for the catch-all panic at the end of `reduce`. -/
inductive RError where
  | typeMismatch : RError
  | unhandledForm : RError
deriving DecidableEq, Repr

/-- Two's-complement wrapping to the `i64` range: the unique integer in
`[-2^63, 2^63)` congruent to `n` modulo `2^64`.  Rust's `i64` addition and
multiplication wrap this way in release builds (debug builds panic at
overflow instead of producing a value). -/
def wrap64 (n : Int) : Int :=
  (n + 2 ^ 63) % 2 ^ 64 - 2 ^ 63

/-- `Element::reduce`, arm for arm.  The `Add` and `Multiply` contractions
compute with `i64` wrapping arithmetic via `wrap64`.  The mutable environment is threaded
explicitly: a successful call returns the successor term together with the
store after the call.  The ordered Rust match arms for `Sequence` and
`IfElse` (a specific pattern first, then the general one) are rendered as
equality tests on the scrutinised child, which is what pattern order means
operationally. -/
def Element.reduce : Element → Store → Except RError (Element × Store)
  | .Add l r, env =>
      if l.is_reducible then
        match l.reduce env with
        | .ok (l', env') => .ok (.Add l' r, env')
        | .error e => .error e
      else if r.is_reducible then
        match r.reduce env with
        | .ok (r', env') => .ok (.Add l r', env')
        | .error e => .error e
      else
        match l.value, r.value with
        | some vl, some vr => .ok (.Number (wrap64 (vl + vr)), env)
        | _, _ => .error .typeMismatch
  | .Multiply l r, env =>
      if l.is_reducible then
        match l.reduce env with
        | .ok (l', env') => .ok (.Multiply l' r, env')
        | .error e => .error e
      else if r.is_reducible then
        match r.reduce env with
        | .ok (r', env') => .ok (.Multiply l r', env')
        | .error e => .error e
      else
        match l.value, r.value with
        | some vl, some vr => .ok (.Number (wrap64 (vl * vr)), env)
        | _, _ => .error .typeMismatch
  | .LessThan l r, env =>
      if l.is_reducible then
        match l.reduce env with
        | .ok (l', env') => .ok (.LessThan l' r, env')
        | .error e => .error e
      else if r.is_reducible then
        match r.reduce env with
        | .ok (r', env') => .ok (.LessThan l r', env')
        | .error e => .error e
      else
        match l.value, r.value with
        | some vl, some vr => .ok (.Boolean (decide (vl < vr)), env)
        | _, _ => .error .typeMismatch
  | .Variable v, env =>
      match env v with
      | some e => .ok (e, env)
      | none => .ok (.DoNothing, env)
  | .Assign name expression, env =>
      if expression.is_reducible then
        match expression.reduce env with
        | .ok (e', env') => .ok (.Assign name e', env')
        | .error e => .error e
      else
        .ok (.DoNothing, env.insert name expression)
  | .Sequence first second, env =>
      if first = .DoNothing then
        .ok (second, env)
      else
        match first.reduce env with
        | .ok (f', env') => .ok (.Sequence f' second, env')
        | .error e => .error e
  | .IfElse cond cons alt, env =>
      if cond = .Boolean true then
        .ok (cons, env)
      else if cond = .Boolean false then
        .ok (alt, env)
      else if cond.is_reducible then
        match cond.reduce env with
        | .ok (c', env') => .ok (.IfElse c' cons alt, env')
        | .error e => .error e
      else
        .error .typeMismatch
  | .While cond body, env =>
      .ok (.IfElse cond (.Sequence body (.While cond body)) .DoNothing, env)
  | .DoNothing, env => .ok (.DoNothing, env)
  | .Number _, _ => .error .unhandledForm
  | .Boolean _, _ => .error .unhandledForm

/-- The virtual machine: one expression, one environment. -/
structure Machine where
  expression : Element
  environment : Store

/-- `Machine::step`: replace the owned expression by its one-step reduct,
keeping the (possibly mutated) environment.  A panic inside `reduce`
aborts the machine, modelled by the error result. -/
def Machine.step (m : Machine) : Except RError Machine :=
  match m.expression.reduce m.environment with
  | .ok (e, env) => .ok ⟨e, env⟩
  | .error err => .error err

/-- `Machine::run`: step while the expression is reducible.  The Rust loop
is unbounded; fuel makes it a total function, with `none` when the fuel
runs out or a step panics, and `some` exactly when the loop reaches a
non-reducible expression within the given number of steps. -/
def Machine.runFuel (m : Machine) : Nat → Option Machine
  | 0 => if m.expression.is_reducible then none else some m
  | fuel + 1 =>
      if m.expression.is_reducible then
        match m.step with
        | .ok m' => m'.runFuel fuel
        | .error _ => none
      else
        some m

/-- Terms whose `Sequence` nodes all have a first component that is either
reducible or `DoNothing`.  The `Sequence` arm of `reduce` recurses into its
first component without checking reducibility, so a `Number` or `Boolean`
sitting in first position reaches the catch-all panic; this predicate rules
that shape out, everywhere in the term. -/
def Element.seqGuarded : Element → Bool
  | .Number _ => true
  | .Boolean _ => true
  | .DoNothing => true
  | .Variable _ => true
  | .Add l r => l.seqGuarded && r.seqGuarded
  | .Multiply l r => l.seqGuarded && r.seqGuarded
  | .LessThan l r => l.seqGuarded && r.seqGuarded
  | .Assign _ e => e.seqGuarded
  | .Sequence f sec =>
      (f.is_reducible || decide (f = .DoNothing)) && f.seqGuarded && sec.seqGuarded
  | .IfElse c t e => c.seqGuarded && t.seqGuarded && e.seqGuarded
  | .While c b => c.seqGuarded && b.seqGuarded

/-- A store all of whose stored values are terminal terms. -/
def StoreTerminal (s : Store) : Prop :=
  ∀ k v, s k = some v → v.is_reducible = false


/-- Frame effect of one reduction step: the store it returns is either the
input store itself, or the input store with one terminal value inserted
(the `Assign` contraction, the only arm of `reduce` that writes). -/
theorem reduce_store_change (t : Element) :
    ∀ s t' s', t.reduce s = .ok (t', s') →
      s' = s ∨ ∃ name v, v.is_reducible = false ∧ s' = s.insert name v := by
  induction t with
  | Number n => intro s t' s' h; simp [Element.reduce] at h
  | Boolean b => intro s t' s' h; simp [Element.reduce] at h
  | DoNothing =>
      intro s t' s' h
      simp only [Element.reduce, Except.ok.injEq, Prod.mk.injEq] at h
      exact Or.inl h.2.symm
  | While c b _ _ =>
      intro s t' s' h
      simp only [Element.reduce, Except.ok.injEq, Prod.mk.injEq] at h
      exact Or.inl h.2.symm
  | Variable v =>
      intro s t' s' h
      simp only [Element.reduce] at h
      split at h <;>
        (simp only [Except.ok.injEq, Prod.mk.injEq] at h; exact Or.inl h.2.symm)
  | Add l r ihl ihr =>
      intro s t' s' h
      simp only [Element.reduce] at h
      split at h
      · split at h
        · next l'' s'' heq =>
            simp only [Except.ok.injEq, Prod.mk.injEq] at h
            exact h.2 ▸ ihl s l'' s'' heq
        · simp at h
      · split at h
        · split at h
          · next r'' s'' heq =>
              simp only [Except.ok.injEq, Prod.mk.injEq] at h
              exact h.2 ▸ ihr s r'' s'' heq
          · simp at h
        · split at h
          · simp only [Except.ok.injEq, Prod.mk.injEq] at h
            exact Or.inl h.2.symm
          · simp at h
  | Multiply l r ihl ihr =>
      intro s t' s' h
      simp only [Element.reduce] at h
      split at h
      · split at h
        · next l'' s'' heq =>
            simp only [Except.ok.injEq, Prod.mk.injEq] at h
            exact h.2 ▸ ihl s l'' s'' heq
        · simp at h
      · split at h
        · split at h
          · next r'' s'' heq =>
              simp only [Except.ok.injEq, Prod.mk.injEq] at h
              exact h.2 ▸ ihr s r'' s'' heq
          · simp at h
        · split at h
          · simp only [Except.ok.injEq, Prod.mk.injEq] at h
            exact Or.inl h.2.symm
          · simp at h
  | LessThan l r ihl ihr =>
      intro s t' s' h
      simp only [Element.reduce] at h
      split at h
      · split at h
        · next l'' s'' heq =>
            simp only [Except.ok.injEq, Prod.mk.injEq] at h
            exact h.2 ▸ ihl s l'' s'' heq
        · simp at h
      · split at h
        · split at h
          · next r'' s'' heq =>
              simp only [Except.ok.injEq, Prod.mk.injEq] at h
              exact h.2 ▸ ihr s r'' s'' heq
          · simp at h
        · split at h
          · simp only [Except.ok.injEq, Prod.mk.injEq] at h
            exact Or.inl h.2.symm
          · simp at h
  | Assign name e ihe =>
      intro s t' s' h
      simp only [Element.reduce] at h
      split at h
      · split at h
        · next e'' s'' heq =>
            simp only [Except.ok.injEq, Prod.mk.injEq] at h
            exact h.2 ▸ ihe s e'' s'' heq
        · simp at h
      · next hnotred =>
          simp only [Except.ok.injEq, Prod.mk.injEq] at h
          refine Or.inr ⟨name, e, ?_, h.2.symm⟩
          simpa using hnotred
  | Sequence f sec ihf _ =>
      intro s t' s' h
      simp only [Element.reduce] at h
      split at h
      · simp only [Except.ok.injEq, Prod.mk.injEq] at h
        exact Or.inl h.2.symm
      · split at h
        · next f'' s'' heq =>
            simp only [Except.ok.injEq, Prod.mk.injEq] at h
            exact h.2 ▸ ihf s f'' s'' heq
        · simp at h
  | IfElse c a b ihc _ _ =>
      intro s t' s' h
      simp only [Element.reduce] at h
      split at h
      · simp only [Except.ok.injEq, Prod.mk.injEq] at h
        exact Or.inl h.2.symm
      · split at h
        · simp only [Except.ok.injEq, Prod.mk.injEq] at h
          exact Or.inl h.2.symm
        · split at h
          · split at h
            · next c'' s'' heq =>
                simp only [Except.ok.injEq, Prod.mk.injEq] at h
                exact h.2 ▸ ihc s c'' s'' heq
            · simp at h
          · simp at h


/-- Claim C1 — amended.  The original claim (reduce never fails on a
reducible term) is false: a reducible term may place a terminal of the
wrong kind where a value or a boolean is required (TypeMismatch), and a
`Sequence` whose first component is a `Number` or `Boolean` drives the
reducer into its catch-all panic (UnhandledForm).  Amended: for every
reducible term all of whose `Sequence` nodes have a reducible-or-DoNothing
first component, and every store, `reduce` yields exactly one successor
configuration or fails with TypeMismatch; the UnhandledForm catch-all is
unreachable from such terms.  (Uniqueness of the successor is definitional:
`reduce` is a function of the term and the store.) -/
theorem reduce_total_on_seqGuarded (t : Element) (s : Store)
    (hred : t.is_reducible = true) (hwf : t.seqGuarded = true) :
    (∃ t' s', t.reduce s = .ok (t', s')) ∨ t.reduce s = .error .typeMismatch := by
  induction t generalizing s with
  | Number n => simp [Element.is_reducible] at hred
  | Boolean b => simp [Element.is_reducible] at hred
  | DoNothing => simp [Element.is_reducible] at hred
  | Add l r ihl ihr =>
      simp only [Element.seqGuarded, Bool.and_eq_true] at hwf
      by_cases hl : l.is_reducible = true
      · rcases ihl s hl hwf.1 with ⟨l', s', heq⟩ | heq
        · exact Or.inl ⟨.Add l' r, s', by simp [Element.reduce, hl, heq]⟩
        · exact Or.inr (by simp [Element.reduce, hl, heq])
      · by_cases hr : r.is_reducible = true
        · rcases ihr s hr hwf.2 with ⟨r', s', heq⟩ | heq
          · exact Or.inl ⟨.Add l r', s', by simp [Element.reduce, hl, hr, heq]⟩
          · exact Or.inr (by simp [Element.reduce, hl, hr, heq])
        · cases hvl : l.value with
          | none => exact Or.inr (by simp [Element.reduce, hl, hr, hvl])
          | some vl =>
              cases hvr : r.value with
              | none => exact Or.inr (by simp [Element.reduce, hl, hr, hvl, hvr])
              | some vr =>
                  exact Or.inl ⟨.Number (wrap64 (vl + vr)), s,
                    by simp [Element.reduce, hl, hr, hvl, hvr]⟩
  | Multiply l r ihl ihr =>
      simp only [Element.seqGuarded, Bool.and_eq_true] at hwf
      by_cases hl : l.is_reducible = true
      · rcases ihl s hl hwf.1 with ⟨l', s', heq⟩ | heq
        · exact Or.inl ⟨.Multiply l' r, s', by simp [Element.reduce, hl, heq]⟩
        · exact Or.inr (by simp [Element.reduce, hl, heq])
      · by_cases hr : r.is_reducible = true
        · rcases ihr s hr hwf.2 with ⟨r', s', heq⟩ | heq
          · exact Or.inl ⟨.Multiply l r', s', by simp [Element.reduce, hl, hr, heq]⟩
          · exact Or.inr (by simp [Element.reduce, hl, hr, heq])
        · cases hvl : l.value with
          | none => exact Or.inr (by simp [Element.reduce, hl, hr, hvl])
          | some vl =>
              cases hvr : r.value with
              | none => exact Or.inr (by simp [Element.reduce, hl, hr, hvl, hvr])
              | some vr =>
                  exact Or.inl ⟨.Number (wrap64 (vl * vr)), s,
                    by simp [Element.reduce, hl, hr, hvl, hvr]⟩
  | LessThan l r ihl ihr =>
      simp only [Element.seqGuarded, Bool.and_eq_true] at hwf
      by_cases hl : l.is_reducible = true
      · rcases ihl s hl hwf.1 with ⟨l', s', heq⟩ | heq
        · exact Or.inl ⟨.LessThan l' r, s', by simp [Element.reduce, hl, heq]⟩
        · exact Or.inr (by simp [Element.reduce, hl, heq])
      · by_cases hr : r.is_reducible = true
        · rcases ihr s hr hwf.2 with ⟨r', s', heq⟩ | heq
          · exact Or.inl ⟨.LessThan l r', s', by simp [Element.reduce, hl, hr, heq]⟩
          · exact Or.inr (by simp [Element.reduce, hl, hr, heq])
        · cases hvl : l.value with
          | none => exact Or.inr (by simp [Element.reduce, hl, hr, hvl])
          | some vl =>
              cases hvr : r.value with
              | none => exact Or.inr (by simp [Element.reduce, hl, hr, hvl, hvr])
              | some vr =>
                  exact Or.inl ⟨.Boolean (decide (vl < vr)), s,
                    by simp [Element.reduce, hl, hr, hvl, hvr]⟩
  | Variable v =>
      cases hv : s v with
      | none => exact Or.inl ⟨.DoNothing, s, by simp [Element.reduce, hv]⟩
      | some e => exact Or.inl ⟨e, s, by simp [Element.reduce, hv]⟩
  | Assign name e ihe =>
      simp only [Element.seqGuarded] at hwf
      by_cases he : e.is_reducible = true
      · rcases ihe s he hwf with ⟨e', s', heq⟩ | heq
        · exact Or.inl ⟨.Assign name e', s', by simp [Element.reduce, he, heq]⟩
        · exact Or.inr (by simp [Element.reduce, he, heq])
      · exact Or.inl ⟨.DoNothing, s.insert name e, by simp [Element.reduce, he]⟩
  | Sequence f sec ihf _ =>
      simp only [Element.seqGuarded, Bool.and_eq_true, Bool.or_eq_true,
        decide_eq_true_eq] at hwf
      by_cases hf : f = Element.DoNothing
      · exact Or.inl ⟨sec, s, by simp [Element.reduce, hf]⟩
      · have hfr : f.is_reducible = true := by
          rcases hwf.1.1 with h | h
          · exact h
          · exact absurd h hf
        rcases ihf s hfr hwf.1.2 with ⟨f', s', heq⟩ | heq
        · exact Or.inl ⟨.Sequence f' sec, s', by simp [Element.reduce, hf, heq]⟩
        · exact Or.inr (by simp [Element.reduce, hf, heq])
  | IfElse c a b ihc _ _ =>
      simp only [Element.seqGuarded, Bool.and_eq_true] at hwf
      by_cases hct : c = Element.Boolean true
      · exact Or.inl ⟨a, s, by simp [Element.reduce, hct]⟩
      · by_cases hcf : c = Element.Boolean false
        · exact Or.inl ⟨b, s, by simp [Element.reduce, hct, hcf]⟩
        · by_cases hcr : c.is_reducible = true
          · rcases ihc s hcr hwf.1.1 with ⟨c', s', heq⟩ | heq
            · exact Or.inl ⟨.IfElse c' a b, s',
                by simp [Element.reduce, hct, hcf, hcr, heq]⟩
            · exact Or.inr (by simp [Element.reduce, hct, hcf, hcr, heq])
          · exact Or.inr (by simp [Element.reduce, hct, hcf, hcr])
  | While c b _ _ =>
      exact Or.inl ⟨.IfElse c (.Sequence b (.While c b)) .DoNothing, s, rfl⟩


/-- Claim C1 — counterexample to the claim as stated.  The term
`Add DoNothing (Number 0)` is reducible (every `Add` is), yet `reduce`
fails on it: both children are terminal, so the value projection runs on
`DoNothing` and panics with a type mismatch. -/
theorem reduce_fails_on_reducible_add :
    (Element.Add .DoNothing (.Number 0)).is_reducible = true
    ∧ (Element.Add .DoNothing (.Number 0)).reduce Store.empty
        = .error .typeMismatch :=
  ⟨rfl, rfl⟩

/-- Spot check for the amended claim C1 at a concrete reducible,
sequence-guarded term and a concrete store. -/
theorem reduce_total_on_seqGuarded_spot :
    (∃ t' s', (Element.Add (.Number 1) (.Number 2)).reduce Store.empty
        = .ok (t', s'))
    ∨ (Element.Add (.Number 1) (.Number 2)).reduce Store.empty
        = .error .typeMismatch :=
  reduce_total_on_seqGuarded (.Add (.Number 1) (.Number 2)) Store.empty rfl rfl

/-- Claim C2: `is_reducible` returns false exactly on `Number`, `Boolean`
and `DoNothing`, and true on every other variant. -/
theorem is_reducible_false_iff_terminal (t : Element) :
    t.is_reducible = false
      ↔ (∃ n, t = .Number n) ∨ (∃ b, t = .Boolean b) ∨ t = .DoNothing := by
  cases t <;> simp [Element.is_reducible]

/-- Spot check for claim C2: `DoNothing` is terminal. -/
theorem is_reducible_false_iff_terminal_spot :
    Element.DoNothing.is_reducible = false :=
  (is_reducible_false_iff_terminal .DoNothing).mpr (Or.inr (Or.inr rfl))

/-- Claim C3 — amended.  The `Add`, `Multiply` and `LessThan` arms of
`reduce` follow the left-to-right, innermost-first pattern — reduce the
left child while it is reducible, then the right child, and contract to a
`Number` or `Boolean` once both are terminal — and
`Add (Number 1) (Number 2)` contracts in exactly one step to the terminal
`Number 3`.  The amendment: the contracted sum and product are the `i64`
wrapping (two's-complement, modulo `2^64`) versions of `value l + value r`
and `value l * value r`, not their unbounded mathematical values, because
the source computes with `i64` arithmetic; the comparison `value l < value r`
is unaffected. -/
theorem binop_reduction_rules (l r : Element) (s : Store) :
    (l.is_reducible = true → ∀ l' s', l.reduce s = .ok (l', s') →
      (Element.Add l r).reduce s = .ok (.Add l' r, s')
      ∧ (Element.Multiply l r).reduce s = .ok (.Multiply l' r, s')
      ∧ (Element.LessThan l r).reduce s = .ok (.LessThan l' r, s'))
    ∧ (l.is_reducible = false → r.is_reducible = true →
        ∀ r' s', r.reduce s = .ok (r', s') →
      (Element.Add l r).reduce s = .ok (.Add l r', s')
      ∧ (Element.Multiply l r).reduce s = .ok (.Multiply l r', s')
      ∧ (Element.LessThan l r).reduce s = .ok (.LessThan l r', s'))
    ∧ (l.is_reducible = false → r.is_reducible = false →
        ∀ vl vr, l.value = some vl → r.value = some vr →
      (Element.Add l r).reduce s = .ok (.Number (wrap64 (vl + vr)), s)
      ∧ (Element.Multiply l r).reduce s = .ok (.Number (wrap64 (vl * vr)), s)
      ∧ (Element.LessThan l r).reduce s = .ok (.Boolean (decide (vl < vr)), s))
    ∧ (Element.Add (.Number 1) (.Number 2)).reduce s = .ok (.Number 3, s)
    ∧ (Element.Number 3).is_reducible = false := by
  refine ⟨?_, ?_, ?_, rfl, rfl⟩
  · intro hl l' s' heq
    exact ⟨by simp [Element.reduce, hl, heq], by simp [Element.reduce, hl, heq],
      by simp [Element.reduce, hl, heq]⟩
  · intro hl hr r' s' heq
    exact ⟨by simp [Element.reduce, hl, hr, heq],
      by simp [Element.reduce, hl, hr, heq],
      by simp [Element.reduce, hl, hr, heq]⟩
  · intro hl hr vl vr hvl hvr
    exact ⟨by simp [Element.reduce, hl, hr, hvl, hvr],
      by simp [Element.reduce, hl, hr, hvl, hvr],
      by simp [Element.reduce, hl, hr, hvl, hvr]⟩

/-- Claim C3 — counterexample to the unbounded reading of the contraction.
At `Add (Number (2^63 - 1)) (Number 1)` — both children terminal, the sum
taken at `i64::MAX` — the program wraps to `i64::MIN` (release builds;
debug builds panic), so the result is not `Number (value l + value r)`:
the mathematical sum `2^63` is never produced. -/
theorem add_contraction_wraps_at_max :
    (Element.Add (.Number (2 ^ 63 - 1)) (.Number 1)).reduce Store.empty
      = .ok (.Number (-(2 ^ 63)), Store.empty)
    ∧ (-(2 ^ 63) : Int) ≠ (2 ^ 63 - 1) + 1 := by
  refine ⟨rfl, by decide⟩

/-- Spot check for claim C3: one step with a reducible left child, and the
one-step contraction of `Add (Number 1) (Number 2)` under the empty store. -/
theorem binop_reduction_rules_spot :
    (Element.Add (.Variable "x") (.Number 2)).reduce
        (Store.empty.insert "x" (.Number 5))
      = .ok (.Add (.Number 5) (.Number 2), Store.empty.insert "x" (.Number 5))
    ∧ (Element.Add (.Number 1) (.Number 2)).reduce Store.empty
      = .ok (.Number 3, Store.empty) :=
  ⟨((binop_reduction_rules (.Variable "x") (.Number 2)
      (Store.empty.insert "x" (.Number 5))).1 rfl (.Number 5)
      (Store.empty.insert "x" (.Number 5)) rfl).1,
    (binop_reduction_rules (.Number 1) (.Number 2) Store.empty).2.2.2.1⟩

/-- Claim C4: the `While` arm unrolls unconditionally in one step, for every
condition, body and store, leaving the store unchanged. -/
theorem while_reduction_rule (cond body : Element) (s : Store) :
    (Element.While cond body).reduce s
      = .ok (.IfElse cond (.Sequence body (.While cond body)) .DoNothing, s) :=
  rfl


/-- Claim C5: a reduction step leaves the store unchanged except for the
`Assign` contraction — reducing `Assign name v` with `v` terminal returns
`DoNothing` and inserts `name ↦ v`; an insertion overwrites only its own
key; and the `Variable` arm only reads, never writes. -/
theorem store_frame_effect :
    (∀ (t : Element) (s : Store) (t' : Element) (s' : Store),
      t.reduce s = .ok (t', s') →
      s' = s ∨ ∃ name v, v.is_reducible = false ∧ s' = s.insert name v)
    ∧ (∀ (name : String) (v : Element) (s : Store), v.is_reducible = false →
        (Element.Assign name v).reduce s = .ok (.DoNothing, s.insert name v))
    ∧ (∀ (s : Store) (name : String) (v : Element) (q : String),
        (s.insert name v) name = some v
        ∧ (q ≠ name → (s.insert name v) q = s q))
    ∧ (∀ (name : String) (s : Store) (t' : Element) (s' : Store),
        (Element.Variable name).reduce s = .ok (t', s') → s' = s) := by
  refine ⟨fun t => reduce_store_change t, ?_, ?_, ?_⟩
  · intro name v s hv
    simp [Element.reduce, hv]
  · intro s name v q
    exact ⟨by simp [Store.insert], fun hq => by simp [Store.insert, hq]⟩
  · intro name s t' s' h
    simp only [Element.reduce] at h
    split at h <;>
      (simp only [Except.ok.injEq, Prod.mk.injEq] at h; exact h.2.symm)

/-- Spot check for claim C5: the `Assign` contraction at a concrete name,
value and store. -/
theorem store_frame_effect_spot :
    (Element.Assign "x" (.Number 1)).reduce Store.empty
      = .ok (.DoNothing, Store.empty.insert "x" (.Number 1)) :=
  store_frame_effect.2.1 "x" (.Number 1) Store.empty rfl

/-- Claim C6 — counterexample to the "if and only if" part as stated.
The condition `Add DoNothing (Number 0)` is reducible, not terminal, yet
`reduce` on the surrounding `IfElse` fails with TypeMismatch, because the
failure of reducing the condition propagates. -/
theorem ifelse_typeMismatch_with_reducible_cond :
    (Element.Add .DoNothing (.Number 0)).is_reducible = true
    ∧ (Element.IfElse (.Add .DoNothing (.Number 0)) (.Number 1)
        (.Number 2)).reduce Store.empty = .error .typeMismatch :=
  ⟨rfl, rfl⟩

/-- Claim C6 — amended.  `IfElse (Boolean true)` selects the consequence,
`IfElse (Boolean false)` the alternative, a reducible condition is reduced
in place (failures of that inner reduction propagate), and for a terminal
condition `reduce` fails with TypeMismatch if and only if the condition is
not a `Boolean`. -/
theorem ifelse_reduction_rules (cond cons alt : Element) (s : Store) :
    (Element.IfElse (.Boolean true) cons alt).reduce s = .ok (cons, s)
    ∧ (Element.IfElse (.Boolean false) cons alt).reduce s = .ok (alt, s)
    ∧ (cond.is_reducible = true → ∀ c' s', cond.reduce s = .ok (c', s') →
        (Element.IfElse cond cons alt).reduce s = .ok (.IfElse c' cons alt, s'))
    ∧ (cond.is_reducible = false →
        ((Element.IfElse cond cons alt).reduce s = .error .typeMismatch
          ↔ ∀ b, cond ≠ .Boolean b)) := by
  refine ⟨rfl, rfl, ?_, ?_⟩
  · intro hcr c' s' heq
    have h1 : cond ≠ Element.Boolean true := by
      rintro rfl; simp [Element.is_reducible] at hcr
    have h2 : cond ≠ Element.Boolean false := by
      rintro rfl; simp [Element.is_reducible] at hcr
    simp [Element.reduce, h1, h2, hcr, heq]
  · intro hcr
    cases cond
    case Boolean b => cases b <;> simp [Element.reduce]
    case Number n => simp [Element.reduce, Element.is_reducible]
    case DoNothing => simp [Element.reduce, Element.is_reducible]
    all_goals simp [Element.is_reducible] at hcr

/-- Spot checks for the amended claim C6: a reducible condition is reduced
in place, and a terminal non-boolean condition gives TypeMismatch. -/
theorem ifelse_reduction_rules_spot :
    (Element.IfElse (.LessThan (.Number 1) (.Number 2)) (.Number 1)
        (.Number 2)).reduce Store.empty
      = .ok (.IfElse (.Boolean true) (.Number 1) (.Number 2), Store.empty)
    ∧ (Element.IfElse (.Number 7) (.Number 1) (.Number 2)).reduce Store.empty
      = .error .typeMismatch :=
  ⟨(ifelse_reduction_rules (.LessThan (.Number 1) (.Number 2)) (.Number 1)
      (.Number 2) Store.empty).2.2.1 rfl (.Boolean true) Store.empty rfl,
    ((ifelse_reduction_rules (.Number 7) (.Number 1) (.Number 2)
      Store.empty).2.2.2 rfl).mpr (fun _ h => Element.noConfusion h)⟩

/-- Claim C7: reducing `Variable name` yields the stored term on a lookup
hit and `DoNothing` on a lookup miss, leaving the store unchanged in both
cases. -/
theorem variable_reduction_rules (name : String) (s : Store) :
    (∀ v, s name = some v → (Element.Variable name).reduce s = .ok (v, s))
    ∧ (s name = none → (Element.Variable name).reduce s = .ok (.DoNothing, s)) := by
  constructor
  · intro v hv; simp [Element.reduce, hv]
  · intro hv; simp [Element.reduce, hv]

/-- Spot check for claim C7: a concrete hit and a concrete miss. -/
theorem variable_reduction_rules_spot :
    (Element.Variable "x").reduce (Store.empty.insert "x" (.Number 1))
      = .ok (.Number 1, Store.empty.insert "x" (.Number 1))
    ∧ (Element.Variable "y").reduce Store.empty
      = .ok (.DoNothing, Store.empty) :=
  ⟨(variable_reduction_rules "x" (Store.empty.insert "x" (.Number 1))).1
      (.Number 1) rfl,
    (variable_reduction_rules "y" Store.empty).2 rfl⟩

/-- Claim C8: the value projection is defined exactly on `Number` and
`Boolean` — `Number n ↦ n`, `Boolean true ↦ 1`, `Boolean false ↦ 0` — and
fails (the modelled TypeMismatch panic) on every other variant. -/
theorem value_projection_rules (n : Int) (t : Element) :
    (Element.Number n).value = some n
    ∧ (Element.Boolean true).value = some 1
    ∧ (Element.Boolean false).value = some 0
    ∧ ((∀ m, t ≠ .Number m) → (∀ b, t ≠ .Boolean b) → t.value = none) := by
  refine ⟨rfl, rfl, rfl, ?_⟩
  intro h1 h2
  cases t
  case Number m => exact absurd rfl (h1 m)
  case Boolean b => exact absurd rfl (h2 b)
  all_goals rfl

/-- Spot check for claim C8: the projection fails on `DoNothing`. -/
theorem value_projection_rules_spot : Element.DoNothing.value = none :=
  (value_projection_rules 0 .DoNothing).2.2.2
    (fun _ h => Element.noConfusion h) (fun _ h => Element.noConfusion h)

/-- Claim C9: starting from the store mapping x to `Number 1` and the term
`While (LessThan (Variable x) (Number 5)) (Assign x (Multiply (Variable x)
(Number 3)))`, the machine run terminates (within 64 steps of fuel), the
final term is not reducible, and the final store maps x to `Number 9`. -/
theorem while_loop_machine_run :
    (Machine.runFuel
      ⟨.While (.LessThan (.Variable "x") (.Number 5))
          (.Assign "x" (.Multiply (.Variable "x") (.Number 3))),
        Store.empty.insert "x" (.Number 1)⟩ 64).map
      (fun m => (m.expression.is_reducible, m.environment "x"))
    = some (false, some (.Number 9)) := by
  rfl

/-- Claim C10: reduction preserves the invariant that every value held by
the store is a terminal term, because the only write — the `Assign`
contraction — inserts its value only after the reducibility check failed. -/
theorem store_terminal_preserved (t : Element) (s : Store) (t' : Element)
    (s' : Store) (h : t.reduce s = .ok (t', s')) (hs : StoreTerminal s) :
    StoreTerminal s' := by
  rcases reduce_store_change t s t' s' h with rfl | ⟨name, v, hv, rfl⟩
  · exact hs
  · intro k w hk
    by_cases hkn : k = name
    · simp only [Store.insert, if_pos hkn] at hk
      cases hk
      exact hv
    · simp only [Store.insert, if_neg hkn] at hk
      exact hs k w hk

/-- Spot check for claim C10: after contracting `Assign x (Number 1)` on
the empty store, every stored value is still terminal. -/
theorem store_terminal_preserved_spot :
    StoreTerminal (Store.empty.insert "x" (.Number 1)) :=
  store_terminal_preserved (.Assign "x" (.Number 1)) Store.empty .DoNothing
    (Store.empty.insert "x" (.Number 1)) rfl
    (fun _ _ h => Option.noConfusion h)

end SimpleSmallStep
